import Mathlib

/-!
Shallow embedding of the Kubernetes garbage collector
(`pkg/controller/garbagecollector/garbage_collector.go`) and proofs about the
deletion / orphaning decision logic.

Each definition translates the corresponding Go function; the calls made to
the API server and the work queues are reified as an explicit list of
`Action`s, and the external collaborators (dynamic clients, REST mapper,
server reads) are passed in as an environment record of functions.
-/

namespace GarbageCollector

/-- The Go `v1.FinalizerOrphanDependents` (the "orphan" finalizer). -/
def FinalizerOrphanDependents : String := "orphan"

/-- The Go `v1.FinalizerDeleteDependents` (the "delete dependents" finalizer). -/
def FinalizerDeleteDependents : String := "foregroundDeletion"

/-- The Go `metav1.OwnerReference`: the reference metadata a dependent stores about
one of its owners. -/
structure OwnerReference where
  apiVersion : String
  kind : String
  name : String
  uid : String
  blockOwnerDeletion : Option Bool
  deriving DecidableEq, Repr

/-- The Go `objectReference`: an object identity (group/version/kind, namespace,
name, UID). -/
structure ObjectReference where
  apiVersion : String
  kind : String
  ns : String
  name : String
  uid : String
  deriving DecidableEq, Repr

/-- Metadata-only view of a live object as returned by the server: exactly the
fields the garbage collector reads (UID, deletion timestamp, finalizers,
owner references). -/
structure MetaObject where
  uid : String
  deletionTimestamp : Option Nat
  finalizers : List String
  ownerReferences : List OwnerReference
  deriving DecidableEq, Repr

/-- Errors surfaced by the API server. `notFound` is the distinguished 404;
everything else is an opaque message (`errors.IsNotFound` distinguishes
them). -/
inductive APIError where
  | notFound
  | other (msg : String)
  deriving DecidableEq, Repr

/-- The Go `errors.IsNotFound`. -/
def APIError.isNotFound : APIError → Bool
  | .notFound => true
  | .other _ => false

/-- A dependent node as seen from its owner: identity, deletion flags and its
recorded owner references (`node.owners`). -/
structure DepNode where
  identity : ObjectReference
  beingDeleted : Bool
  deletingDependents : Bool
  owners : List OwnerReference
  deriving DecidableEq, Repr

/-- The graph vertex `node`: identity, the object's recorded owner
references, the deletion flags and the reverse `dependents` edges (one level
deep, which is all the worker code ever walks). -/
structure Node where
  identity : ObjectReference
  owners : List OwnerReference
  beingDeleted : Bool
  deletingDependents : Bool
  dependents : List DepNode
  deriving DecidableEq, Repr

/-- Modelled from the spec: `hasDeleteDependentsFinalizer` (the helper is not
part of the sources at hand) — the object carries the "delete dependents"
finalizer. -/
def hasDeleteDependentsFinalizer (obj : MetaObject) : Bool :=
  obj.finalizers.contains FinalizerDeleteDependents

/-- Modelled from the spec: `node.blockingDependents` (the `node` methods are
not part of the sources at hand) — the subset of this node's dependents whose
owner reference back to this node has the block-owner-deletion flag set and
that are not yet themselves being deleted. -/
def Node.blockingDependents (n : Node) : List DepNode :=
  n.dependents.filter fun dep =>
    (dep.owners.any fun ref =>
      ref.uid == n.identity.uid && ref.blockOwnerDeletion == some true)
    && !dep.beingDeleted

/-- The patches the collector sends, reified as data.
`deleteOwnerRefs` is the strategic-merge patch built by `deleteOwnerRefPatch`
(modelled from the spec: it removes exactly the owner references with the
given UIDs, preconditioned on the patched object's UID); `unblockOwnerRefs`
is the patch built by `patchToUnblockOwnerReferences` (sets
blockOwnerDeletion to false on the listed references). -/
inductive Patch where
  | deleteOwnerRefs (preconditionUID : String) (ownerUIDs : List String)
  | unblockOwnerRefs (refs : List OwnerReference)
  deriving DecidableEq, Repr

/-- Modelled from the spec: `node.patchToUnblockOwnerReferences` — a patch
over the node's own owner references with block-owner-deletion stripped on
all of them. -/
def Node.patchToUnblockOwnerReferences (n : Node) : Patch :=
  .unblockOwnerRefs (n.owners.map fun r => { r with blockOwnerDeletion := some false })

/-- The Go `deleteOwnerRefPatch(uid, ownerUIDs...)`, reified. -/
def deleteOwnerRefPatch (uid : String) (ownerUIDs : List String) : Patch :=
  .deleteOwnerRefs uid ownerUIDs

/-- The Go `v1.DeletePropagation` policies used by the collector. -/
inductive DeletePropagation where
  | default
  | foreground
  deriving DecidableEq, Repr

/-- The Go `eventType` of a graph-change event. -/
inductive EventType where
  | addEvent
  | updateEvent
  | deleteEvent
  deriving DecidableEq, Repr

/-- The Go `metaonly.MetadataOnlyObject`: apiVersion/kind plus namespace/name/UID. -/
structure MetadataOnlyObject where
  apiVersion : String
  kind : String
  ns : String
  name : String
  uid : String
  deriving DecidableEq, Repr

/-- The Go `objectReferenceToMetadataOnlyObject`. -/
def objectReferenceToMetadataOnlyObject (ref : ObjectReference) : MetadataOnlyObject :=
  { apiVersion := ref.apiVersion, kind := ref.kind,
    ns := ref.ns, name := ref.name, uid := ref.uid }

/-- The externally visible operations a worker performs, in order: server
calls (`ownerGetCall` is the classifier's Get for an owner reference) and
queue insertions. -/
inductive Action where
  | ownerGetCall (ref : OwnerReference)
  | patchCall (id : ObjectReference) (p : Patch)
  | deleteCall (id : ObjectReference) (prop : DeletePropagation)
  | removeFinalizerCall (id : ObjectReference) (finalizer : String)
  | graphChangesAdd (etype : EventType) (obj : MetadataOnlyObject)
  | enqueueAttemptToDelete (id : ObjectReference)
  deriving DecidableEq, Repr

/-- The Go `generateVirtualDeleteEvent`: enqueue a synthetic delete event carrying
the identity onto the graph-change queue. -/
def generateVirtualDeleteEvent (identity : ObjectReference) : Action :=
  .graphChangesAdd .deleteEvent (objectReferenceToMetadataOnlyObject identity)

/-- Errors `processItem` can return. -/
inductive ClassifyError where
  | clientErr (msg : String)
  | resourceErr (msg : String)
  | getErr (msg : String)
  deriving DecidableEq, Repr

/-- The zero value the dynamic client's `Get` hands back together with an
error (`result := new(runtime.Unstructured)` is returned undecoded): empty
UID, no deletion timestamp, no finalizers, no owner references. -/
def MetaObject.zero : MetaObject :=
  { uid := "", deletionTimestamp := none, finalizers := [], ownerReferences := [] }

/-- The accumulating state of `classifyReferences`: the absent-owner cache
(a set of UIDs), the three output buckets, and the trace of server Gets
issued so far. -/
structure ClassifyState where
  cache : List String
  solid : List OwnerReference
  dangling : List OwnerReference
  waiting : List OwnerReference
  getCalls : List OwnerReference
  deriving DecidableEq, Repr

/-- The external collaborators of the garbage collector worker, as functions:
`clientFor` is `clientPool.ClientForGroupVersionKind`, `apiResourceFor` is
`gc.apiResource`, `getOwner` is the dynamic client `Get` for an owner
reference, and `getObject` / `patchObject` / `deleteObject` /
`removeFinalizer` are the identity-based object accessors. -/
structure GCEnv where
  clientFor : String → String → Except String Unit
  apiResourceFor : String → String → Bool → Except String Unit
  getOwner : OwnerReference → Except APIError MetaObject
  getObject : ObjectReference → Except APIError MetaObject
  patchObject : ObjectReference → Patch → Except APIError MetaObject
  deleteObject : ObjectReference → DeletePropagation → Option APIError
  removeFinalizer : ObjectReference → String → Option APIError

/-- The code of `classifyReferences` that follows the owner `Get`: the
UID-mismatch check, then the deletion-timestamp / "delete dependents"
finalizer test deciding waiting versus solid. -/
def classifyAfterGet (s : ClassifyState) (owner : MetaObject)
    (reference : OwnerReference) : Except (ClassifyError × ClassifyState) ClassifyState :=
  if owner.uid != reference.uid then
    .ok { s with cache := s.cache ++ [reference.uid],
                 dangling := s.dangling ++ [reference] }
  else if owner.deletionTimestamp.isSome && hasDeleteDependentsFinalizer owner then
    .ok { s with waiting := s.waiting ++ [reference] }
  else
    .ok { s with solid := s.solid ++ [reference] }

/-- One iteration of the loop body of `classifyReferences` for a single
owner reference. Notable fidelity points, straight from the source:

* a cache hit classifies dangling and `continue`s without touching the
  client pool, the REST mapping or the server;
* a non-NotFound `Get` error returns immediately;
* in the NotFound branch the source records the absence and appends to
  `dangling` but — unlike the UID-mismatch branch below it — has no
  `continue`, so control falls through to the code after the `Get`
  (`classifyAfterGet`) with the zero-valued `owner` the client returned
  alongside the error. -/
def classifyStep (env : GCEnv) (namespaced : Bool) (s : ClassifyState)
    (reference : OwnerReference) : Except (ClassifyError × ClassifyState) ClassifyState :=
  if s.cache.contains reference.uid then
    .ok { s with dangling := s.dangling ++ [reference] }
  else
    match env.clientFor reference.apiVersion reference.kind with
    | .error e => .error (.clientErr e, s)
    | .ok _ =>
      match env.apiResourceFor reference.apiVersion reference.kind namespaced with
      | .error e => .error (.resourceErr e, s)
      | .ok _ =>
        let s1 := { s with getCalls := s.getCalls ++ [reference] }
        match env.getOwner reference with
        | .error e =>
          if !e.isNotFound then
            .error (.getErr (reprStr e), s1)
          else
            -- missing `continue`: absence recorded, dangling appended, then
            -- execution falls through to the post-Get code on the zero owner
            classifyAfterGet
              { s1 with cache := s1.cache ++ [reference.uid],
                        dangling := s1.dangling ++ [reference] }
              MetaObject.zero reference
        | .ok owner => classifyAfterGet s1 owner reference

/-- The state `classifyReferences` starts from: the collector's absent-owner
cache and empty buckets. -/
def initialClassifyState (cache : List String) : ClassifyState :=
  { cache := cache, solid := [], dangling := [], waiting := [], getCalls := [] }

/-- The Go `classifyReferences`: fold the loop body over the latest owner
references, starting from the collector's absent-owner cache and empty
buckets. -/
def classifyReferences (env : GCEnv) (namespaced : Bool) (cache : List String)
    (latestReferences : List OwnerReference) :
    Except (ClassifyError × ClassifyState) ClassifyState :=
  latestReferences.foldlM (classifyStep env namespaced) (initialClassifyState cache)

/-- The Go `ownerRefsToUIDs`. -/
def ownerRefsToUIDs (refs : List OwnerReference) : List String :=
  refs.map (·.uid)

/-- Errors returned by `processItem` (API errors or classification errors). -/
inductive GCError where
  | api (e : APIError)
  | classify (e : ClassifyError)
  deriving DecidableEq, Repr

/-- Map an optional API error into the worker's return value. -/
def apiErr? : Option APIError → Option GCError
  | some e => some (.api e)
  | none => none

/-- The error component of a patch call's result (`_, err = gc.patchObject(...)`;
`return err`). -/
def patchErr? : Except APIError MetaObject → Option GCError
  | .error e => some (.api e)
  | .ok _ => none

/-- The Go `processDeletingDependentsItem`: if the blocking-dependents set is empty,
remove the "delete dependents" finalizer; otherwise enqueue every blocking
dependent that is not yet `deletingDependents` onto the delete-attempt queue
and return nil. -/
def processDeletingDependentsItem (env : GCEnv) (item : Node) :
    List Action × Option GCError :=
  let blockingDependents := item.blockingDependents
  if blockingDependents.length = 0 then
    ([.removeFinalizerCall item.identity FinalizerDeleteDependents],
      apiErr? (env.removeFinalizer item.identity FinalizerDeleteDependents))
  else
    (blockingDependents.filterMap fun dep =>
      if !dep.deletingDependents then
        some (.enqueueAttemptToDelete dep.identity)
      else none, none)

/-- The tail of the `waiting`/`dependents` branch of `processItem`: delete
the item with foreground propagation. -/
def foregroundDelete (env : GCEnv) (item : Node) : List Action × Option GCError :=
  ([.deleteCall item.identity .foreground],
    apiErr? (env.deleteObject item.identity .foreground))

/-- The `len(waiting) != 0 && len(item.dependents) != 0` branch of
`processItem`: scan the dependents for the first one that is itself
`deletingDependents`; on a hit, patch THE ITEM's own owner references to
strip block-owner-deletion and break out of the loop; then delete the item
with foreground propagation. (The source's `range` over the dependents map
is determinised here as a left-to-right scan of the list.) -/
def waitingBranch (env : GCEnv) (item : Node) : List Action × Option GCError :=
  match item.dependents.find? (fun dep => dep.deletingDependents) with
  | some _ =>
    let patch := item.patchToUnblockOwnerReferences
    match env.patchObject item.identity patch with
    | .error e => ([.patchCall item.identity patch], some (.api e))
    | .ok _ =>
      let (acts, err) := foregroundDelete env item
      (.patchCall item.identity patch :: acts, err)
  | none => foregroundDelete env item

/-- The Go `processItem`: the delete-attempt worker's per-node state machine.
Returns the trace of externally visible operations and the error the Go
function returns (`none` = nil). -/
def processItem (env : GCEnv) (cache : List String) (item : Node) :
    List Action × Option GCError :=
  if item.beingDeleted && !item.deletingDependents then
    ([], none)
  else
    match env.getObject item.identity with
    | .error e =>
      if e.isNotFound then ([generateVirtualDeleteEvent item.identity], none)
      else ([], some (.api e))
    | .ok latest =>
      if latest.uid != item.identity.uid then
        ([generateVirtualDeleteEvent item.identity], none)
      else if item.deletingDependents then
        processDeletingDependentsItem env item
      else
        let ownerReferences := latest.ownerReferences
        if ownerReferences.length = 0 then ([], none)
        else
          match classifyReferences env (item.identity.ns.length != 0) cache ownerReferences with
          | .error (e, s) => (s.getCalls.map .ownerGetCall, some (.classify e))
          | .ok s =>
            let gets := s.getCalls.map Action.ownerGetCall
            if s.solid.length ≠ 0 then
              let patch := deleteOwnerRefPatch item.identity.uid
                (ownerRefsToUIDs s.dangling ++ ownerRefsToUIDs s.waiting)
              (gets ++ [.patchCall item.identity patch],
                patchErr? (env.patchObject item.identity patch))
            else if s.waiting.length ≠ 0 ∧ item.dependents.length ≠ 0 then
              let (acts, err) := waitingBranch env item
              (gets ++ acts, err)
            else
              (gets ++ [.deleteCall item.identity .default],
                apiErr? (env.deleteObject item.identity .default))

/-- The Go `attemptToDeleteWorker` re-enqueues (AddRateLimited) exactly when
`processItem` returned a non-nil error. -/
def attemptToDeleteWorkerRequeues (env : GCEnv) (cache : List String) (item : Node) : Bool :=
  (processItem env cache item).2.isSome

/-- The Go `orhpanDependents` (name kept from the source): patch every dependent to
drop the owner reference back to `owner` (preconditioned on the dependent's
UID); a NotFound patch error does not count as a failure. The source
collects the failures into `errorsSlice` but then tests
`len(failedDependents)`, a slice nothing ever appends to — translated
faithfully below, so the function's result does not depend on
`errorsSlice`. -/
def orhpanDependents (env : GCEnv) (owner : ObjectReference)
    (dependents : List DepNode) : Option String :=
  let errorsSlice : List String := dependents.filterMap fun dependent =>
    let patch := deleteOwnerRefPatch dependent.identity.uid [owner.uid]
    match env.patchObject dependent.identity patch with
    | .error e => if !e.isNotFound then some ("orphaning failed: " ++ reprStr e) else none
    | .ok _ => none
  let failedDependents : List ObjectReference := []
  if failedDependents.length ≠ 0 then
    some ("failed to orphan dependents of owner " ++ owner.name ++ ", got errors: "
      ++ String.intercalate (", ") errorsSlice)
  else
    none

/-- Outcome of one pass of the orphan worker over a dequeued owner. -/
inductive OrphanOutcome where
  | requeuedAfterOrphanFailure
  | requeuedAfterFinalizerFailure
  | finalizerRemoved
  deriving DecidableEq, Repr

/-- The Go `attemptToOrphanWorker` for a dequeued owner node: orphan the snapshot of
its dependents; on error re-enqueue with rate-limited backoff; otherwise
remove the "orphan" finalizer from the owner, re-enqueueing if that fails. -/
def attemptToOrphanWorker (env : GCEnv) (owner : Node) : OrphanOutcome :=
  let dependents := owner.dependents
  match orhpanDependents env owner.identity dependents with
  | some _ => .requeuedAfterOrphanFailure
  | none =>
    match env.removeFinalizer owner.identity FinalizerOrphanDependents with
    | some _ => .requeuedAfterFinalizerFailure
    | none => .finalizerRemoved

/-- The Go `schema.GroupVersionResource`. -/
structure GroupVersionResource where
  group : String
  version : String
  resource : String
  deriving DecidableEq, Repr

/-- The Go `schema.GroupVersionKind`. -/
structure GroupVersionKind where
  group : String
  version : String
  kind : String
  deriving DecidableEq, Repr

/-- The static `ignoredResources` set. -/
def ignoredResources : List GroupVersionResource :=
  [ ⟨"extensions", "v1beta1", "replicationcontrollers"⟩,
    ⟨"", "v1", "bindings"⟩,
    ⟨"", "v1", "componentstatuses"⟩,
    ⟨"", "v1", "events"⟩,
    ⟨"authentication.k8s.io", "v1beta1", "tokenreviews"⟩,
    ⟨"authorization.k8s.io", "v1beta1", "subjectaccessreviews"⟩,
    ⟨"authorization.k8s.io", "v1beta1", "selfsubjectaccessreviews"⟩,
    ⟨"authorization.k8s.io", "v1beta1", "localsubjectaccessreviews"⟩ ]

/-- A monitor created by `controllerFor` for one watched resource. -/
structure Monitor where
  resource : GroupVersionResource
  kind : GroupVersionKind
  deriving DecidableEq, Repr

/-- The collaborators of `NewGarbageCollector`: the REST mapper's `KindFor`
and the meta-only client pool consulted by `controllerFor`. -/
structure NewGCEnv where
  kindFor : GroupVersionResource → Except String GroupVersionKind
  clientForGVK : GroupVersionKind → Except String Unit

/-- The Go `gc.controllerFor`: obtain a meta-only client for the kind (propagating
its error) and build the list/watch monitor. -/
def controllerFor (env : NewGCEnv) (resource : GroupVersionResource)
    (kind : GroupVersionKind) : Except String Monitor :=
  match env.clientForGVK kind with
  | .error e => .error e
  | .ok _ => .ok { resource := resource, kind := kind }

/-- The monitor-construction loop of `NewGarbageCollector` over the
deletable resources (the source's `range` over the map is determinised as a
left-to-right scan): skip statically ignored resources; resolve the kind and
build the monitor, returning the error (and hence a nil collector) on the
first failure. -/
def buildMonitors (env : NewGCEnv) (monitors : List Monitor) :
    List GroupVersionResource → Except String (List Monitor)
  | [] => .ok monitors
  | resource :: rest =>
    if resource ∈ ignoredResources then
      buildMonitors env monitors rest
    else
      match env.kindFor resource with
      | .error e => .error e
      | .ok kind =>
        match controllerFor env resource kind with
        | .error e => .error e
        | .ok controller => buildMonitors env (monitors ++ [controller]) rest

/-- The Go `NewGarbageCollector`, restricted to its observable monitor list: `.ok
monitors` is a successfully constructed collector watching exactly
`monitors`; `.error e` is the `return nil, err` path. -/
def NewGarbageCollector (env : NewGCEnv)
    (deletableResources : List GroupVersionResource) : Except String (List Monitor) :=
  buildMonitors env [] deletableResources

/-! ## Concrete fixtures used by the closed evaluations and witnesses -/

/-- A benign default environment: kind resolution and clients succeed, every
server read is NotFound, every write succeeds. -/
def envBase : GCEnv :=
  { clientFor := fun _ _ => .ok ()
    apiResourceFor := fun _ _ _ => .ok ()
    getOwner := fun _ => .error .notFound
    getObject := fun _ => .error .notFound
    patchObject := fun _ _ => .ok MetaObject.zero
    deleteObject := fun _ _ => none
    removeFinalizer := fun _ _ => none }

/-- An owner reference to a ReplicaSet that does not exist server-side. -/
def refGone : OwnerReference :=
  { apiVersion := "v1", kind := "ReplicaSet", name := "rs-gone",
    uid := "uid-gone", blockOwnerDeletion := none }

/-- An owner reference to a live ReplicaSet. -/
def refLive : OwnerReference :=
  { apiVersion := "v1", kind := "ReplicaSet", name := "rs-live",
    uid := "uid-live", blockOwnerDeletion := none }

/-- The live ReplicaSet owner behind `refLive`: same UID, not being
deleted. -/
def ownerLive : MetaObject :=
  { uid := "uid-live", deletionTimestamp := none, finalizers := [],
    ownerReferences := [] }

/-- An owner that is mid-foreground-cascade: non-nil deletion timestamp and
the "delete dependents" finalizer, with the UID of `refLive`. -/
def ownerMidDelete : MetaObject :=
  { uid := "uid-live", deletionTimestamp := some 5,
    finalizers := [FinalizerDeleteDependents], ownerReferences := [] }

/-- Identity of a pod used as the processed item. -/
def idPod : ObjectReference :=
  { apiVersion := "v1", kind := "Pod", ns := "ns1", name := "pod-1", uid := "uid-pod" }

/-- Identity of a dependent of the processed item. -/
def idDep : ObjectReference :=
  { apiVersion := "v1", kind := "Pod", ns := "ns1", name := "dep-1", uid := "uid-dep" }

/-- Identity of an owner whose dependents get orphaned. -/
def idOwner : ObjectReference :=
  { apiVersion := "v1", kind := "ReplicaSet", ns := "ns1", name := "rs-own", uid := "uid-own" }

/-- C1 fixture: every patch fails with an internal server error (not
NotFound). -/
def envOrphanFail : GCEnv :=
  { envBase with patchObject := fun _ _ => .error (.other ("internal server error")) }

/-- C1 fixture: a dependent still holding an owner reference to
`idOwner`. -/
def depOrphan : DepNode :=
  { identity := idDep, beingDeleted := false, deletingDependents := false,
    owners := [{ apiVersion := "v1", kind := "ReplicaSet", name := "rs-own",
                 uid := "uid-own", blockOwnerDeletion := none }] }

/-- C1 fixture: the dequeued owner carrying the dependent to orphan. -/
def ownerOrphan : Node :=
  { identity := idOwner, owners := [], beingDeleted := true,
    deletingDependents := false, dependents := [depOrphan] }

/-- C3 fixture: the item's own owner reference (blocking its owner). -/
def refOfItem : OwnerReference :=
  { apiVersion := "v1", kind := "ReplicaSet", name := "rs-live",
    uid := "uid-live", blockOwnerDeletion := some true }

/-- C3 fixture: a dependent of the item that is itself deleting its
dependents. -/
def depDeleting : DepNode :=
  { identity := idDep, beingDeleted := false, deletingDependents := true,
    owners := [{ apiVersion := "v1", kind := "Pod", name := "pod-1",
                 uid := "uid-pod", blockOwnerDeletion := some true }] }

/-- C3 fixture: the processed item — active, owned via `refOfItem`, with the
cascading dependent `depDeleting`. -/
def itemWaiting : Node :=
  { identity := idPod, owners := [refOfItem], beingDeleted := false,
    deletingDependents := false, dependents := [depDeleting] }

/-- C3 fixture: the live object for `itemWaiting` as re-fetched. -/
def latestWaiting : MetaObject :=
  { uid := "uid-pod", deletionTimestamp := none, finalizers := [],
    ownerReferences := [refOfItem] }

/-- C3 fixture: re-fetch finds `latestWaiting`; the owner behind `refOfItem`
is mid-cascade (`ownerMidDelete`); patches and deletes succeed. -/
def envWaiting : GCEnv :=
  { envBase with
    getObject := fun _ => .ok latestWaiting
    getOwner := fun _ => .ok ownerMidDelete }

/-- C3 fixture: the classification reached when processing `itemWaiting`
with an empty absent-owner cache. -/
def stateWaiting : ClassifyState :=
  { cache := [], solid := [], dangling := [], waiting := [refOfItem],
    getCalls := [refOfItem] }

/-- C4 fixture: the item re-fetched with one dangling (cached-absent) and one
live owner reference. -/
def latestSolid : MetaObject :=
  { uid := "uid-pod", deletionTimestamp := none, finalizers := [],
    ownerReferences := [refGone, refLive] }

/-- C4 fixture: the processed item for the solid case. -/
def itemSolid : Node :=
  { identity := idPod, owners := [refGone, refLive], beingDeleted := false,
    deletingDependents := false, dependents := [] }

/-- C4 fixture: re-fetch finds `latestSolid`; `refLive` resolves to the live
owner. -/
def envSolid : GCEnv :=
  { envBase with
    getObject := fun _ => .ok latestSolid
    getOwner := fun r => if r.uid == "uid-live" then .ok ownerLive else .error .notFound }

/-- C4 fixture: the classification reached when processing `itemSolid` with
`refGone` already in the absent-owner cache. -/
def stateSolid : ClassifyState :=
  { cache := ["uid-gone"], solid := [refLive], dangling := [refGone],
    waiting := [], getCalls := [refLive] }

/-- C5 fixture: a blocking dependent of `itemBlocked` (block flag set, not
being deleted, not yet deleting its own dependents). -/
def depBlocking : DepNode :=
  { identity := idDep, beingDeleted := false, deletingDependents := false,
    owners := [{ apiVersion := "v1", kind := "Pod", name := "pod-1",
                 uid := "uid-pod", blockOwnerDeletion := some true }] }

/-- C5 fixture: a node in foreground cascade with one blocking dependent. -/
def itemBlocked : Node :=
  { identity := idPod, owners := [], beingDeleted := true,
    deletingDependents := true, dependents := [depBlocking] }

/-- C7 fixture: an active node whose re-fetch will be NotFound under
`envBase`. -/
def itemVirtual : Node :=
  { identity := idPod, owners := [], beingDeleted := false,
    deletingDependents := false, dependents := [] }

/-- C8 fixture: kind resolution fails for every reference, so any server
path would abort. -/
def envNoKind : GCEnv :=
  { envBase with clientFor := fun _ _ => .error ("unresolvable reference kind") }

/-- C6 fixture: the owner behind every reference is `ownerMidDelete`. -/
def envMidDelete : GCEnv :=
  { envBase with getOwner := fun _ => .ok ownerMidDelete }

/-- C9/C10 fixture: a watchable core resource that is not ignored. -/
def gvrPods : GroupVersionResource := { group := "", version := "v1", resource := "pods" }

/-- C9 fixture: the statically ignored events resource. -/
def gvrEvents : GroupVersionResource := { group := "", version := "v1", resource := "events" }

/-- C9 fixture: kind resolution and client construction always succeed. -/
def envNewGCOk : NewGCEnv :=
  { kindFor := fun r => .ok { group := r.group, version := r.version, kind := "Pod" }
    clientForGVK := fun _ => .ok () }

/-- C9 fixture: the single monitor `envNewGCOk` builds for `gvrPods`. -/
def monPods : Monitor :=
  { resource := gvrPods, kind := { group := "", version := "v1", kind := "Pod" } }

/-- C10 fixture: the REST mapper cannot resolve any kind. -/
def envNewGCBad : NewGCEnv :=
  { kindFor := fun _ => .error ("no kind for resource")
    clientForGVK := fun _ => .ok () }

/-! ## Helper lemmas -/

theorem exceptFoldlM_append {ε σ α : Type} (f : σ → α → Except ε σ)
    (l₁ l₂ : List α) (s : σ) :
    (l₁ ++ l₂).foldlM f s = (l₁.foldlM f s) >>= fun s' => l₂.foldlM f s' := by
  induction l₁ generalizing s with
  | nil => rfl
  | cons a t ih =>
    simp only [List.cons_append, List.foldlM]
    cases hfa : f s a with
    | error e => rfl
    | ok s' => exact ih s'

theorem classifyReferences_snoc (env : GCEnv) (namespaced : Bool)
    (cache : List String) (prior : List OwnerReference)
    (reference : OwnerReference) (s : ClassifyState)
    (h : classifyReferences env namespaced cache prior = .ok s) :
    classifyReferences env namespaced cache (prior ++ [reference]) =
      classifyStep env namespaced s reference := by
  unfold classifyReferences at h ⊢
  rw [exceptFoldlM_append, h]
  show (classifyStep env namespaced s reference) >>= pure = _
  cases classifyStep env namespaced s reference with
  | error e => rfl
  | ok s' => rfl

/-! ## Claim theorems -/

/-- C2: the claim says a NotFound owner `Get` classifies the reference as
dangling exactly once and that the code following the `Get` is not reached.
The source lacks the `continue` after the NotFound branch, so execution
falls through into the post-Get UID check against the zero-valued owner and
classifies the same reference dangling a second time (adding its UID to the
absent-owner cache twice as well): at the concrete input below the result
holds the reference twice in `dangling`, refuting the exactly-once claim. -/
theorem classify_notFound_double_dangling :
    classifyReferences envBase false [] [refGone] =
      .ok { cache := ["uid-gone", "uid-gone"], solid := [],
            dangling := [refGone, refGone], waiting := [], getCalls := [refGone] } := by
  rfl

/-- C8: a reference whose UID is in the absent-owner cache is classified as
dangling immediately: for an arbitrary environment — in particular one in
which the reference's kind cannot be resolved — the step appends the
reference to `dangling` once and leaves everything else, including the
trace of server Gets, untouched. -/
theorem classifyReferences_cacheHit (env : GCEnv) (namespaced : Bool)
    (cache : List String) (prior : List OwnerReference)
    (reference : OwnerReference) (s : ClassifyState)
    (h : classifyReferences env namespaced cache prior = .ok s)
    (hhit : s.cache.contains reference.uid = true) :
    classifyReferences env namespaced cache (prior ++ [reference]) =
      .ok { s with dangling := s.dangling ++ [reference] } := by
  rw [classifyReferences_snoc env namespaced cache prior reference s h]
  unfold classifyStep
  rw [if_pos hhit]

/-- Witness for C8: with kind resolution failing for every reference, a
cached-absent reference is still classified dangling with no server Get. -/
theorem classifyReferences_cacheHit_witness :
    classifyReferences envNoKind false ["uid-live"] [refLive] =
      .ok { initialClassifyState ["uid-live"] with dangling := [refLive] } :=
  classifyReferences_cacheHit envNoKind false ["uid-live"] [] refLive
    (initialClassifyState ["uid-live"]) rfl (by decide)

/-- C6: a reference that resolves to a live owner with matching UID is
classified waiting exactly when the owner has a non-nil deletion timestamp
and carries the "delete dependents" finalizer, and solid otherwise. -/
theorem classifyReferences_liveOwner (env : GCEnv) (namespaced : Bool)
    (cache : List String) (prior : List OwnerReference)
    (reference : OwnerReference) (s : ClassifyState) (owner : MetaObject)
    (h : classifyReferences env namespaced cache prior = .ok s)
    (hmiss : s.cache.contains reference.uid = false)
    (hclient : env.clientFor reference.apiVersion reference.kind = .ok ())
    (hres : env.apiResourceFor reference.apiVersion reference.kind namespaced = .ok ())
    (hget : env.getOwner reference = .ok owner)
    (huid : owner.uid = reference.uid) :
    classifyReferences env namespaced cache (prior ++ [reference]) =
      .ok (if owner.deletionTimestamp.isSome && hasDeleteDependentsFinalizer owner then
        { s with getCalls := s.getCalls ++ [reference], waiting := s.waiting ++ [reference] }
      else
        { s with getCalls := s.getCalls ++ [reference], solid := s.solid ++ [reference] }) := by
  rw [classifyReferences_snoc env namespaced cache prior reference s h]
  unfold classifyStep classifyAfterGet
  simp only [hmiss, hclient, hres, hget, Bool.false_eq_true, if_false]
  simp [huid]
  split <;> rfl

/-- Witness for C6: a live owner mid-cascade (non-nil deletion timestamp and
the "delete dependents" finalizer) makes its reference waiting. -/
theorem classifyReferences_liveOwner_witness :
    classifyReferences envMidDelete true [] [refLive] =
      .ok { initialClassifyState [] with waiting := [refLive], getCalls := [refLive] } := by
  have h := classifyReferences_liveOwner envMidDelete true [] [] refLive
    (initialClassifyState []) ownerMidDelete rfl rfl rfl rfl rfl rfl
  simpa using h

/-- C1: the claim says a non-NotFound patch failure makes `orhpanDependents`
return a non-nil error, the owner is re-enqueued and the "orphan" finalizer
is kept. The source collects the failures into `errorsSlice` but gates the
error return on `failedDependents`, a slice nothing ever appends to: at the
concrete input below a dependent's patch fails with an internal server error,
yet `orhpanDependents` returns nil and the worker proceeds to remove the
"orphan" finalizer without re-enqueueing — refuting every part of the
claim's error path. -/
theorem orphan_failure_still_removes_finalizer :
    orhpanDependents envOrphanFail ownerOrphan.identity ownerOrphan.dependents = none
    ∧ attemptToOrphanWorker envOrphanFail ownerOrphan = .finalizerRemoved :=
  ⟨rfl, rfl⟩

/-- C7: when the re-fetch of the live object is NotFound, or finds an object
with a different UID, `processItem` enqueues a synthetic delete event
carrying the node's identity onto the graph-change queue and returns nil, so
the delete-attempt worker does not re-enqueue the item. -/
theorem processItem_virtualDelete (env : GCEnv) (cache : List String) (item : Node)
    (hguard : (item.beingDeleted && !item.deletingDependents) = false) :
    (env.getObject item.identity = .error .notFound →
      processItem env cache item = ([generateVirtualDeleteEvent item.identity], none)
      ∧ attemptToDeleteWorkerRequeues env cache item = false)
    ∧ (∀ latest : MetaObject, env.getObject item.identity = .ok latest →
        latest.uid ≠ item.identity.uid →
        processItem env cache item = ([generateVirtualDeleteEvent item.identity], none)
        ∧ attemptToDeleteWorkerRequeues env cache item = false) := by
  have hreq : ∀ acts, processItem env cache item = (acts, none) →
      attemptToDeleteWorkerRequeues env cache item = false := by
    intro acts hp
    unfold attemptToDeleteWorkerRequeues
    rw [hp]
    rfl
  constructor
  · intro hget
    have hp : processItem env cache item = ([generateVirtualDeleteEvent item.identity], none) := by
      unfold processItem
      simp [hguard, hget, APIError.isNotFound]
    exact ⟨hp, hreq _ hp⟩
  · intro latest hget huid
    have hp : processItem env cache item = ([generateVirtualDeleteEvent item.identity], none) := by
      unfold processItem
      simp [hguard, hget, bne_iff_ne, huid]
    exact ⟨hp, hreq _ hp⟩

/-- Witness for C7: an active node whose re-fetch is NotFound yields exactly
the synthetic delete event and no retry. -/
theorem processItem_virtualDelete_witness :
    processItem envBase [] itemVirtual = ([generateVirtualDeleteEvent itemVirtual.identity], none)
    ∧ attemptToDeleteWorkerRequeues envBase [] itemVirtual = false :=
  (processItem_virtualDelete envBase [] itemVirtual (by decide)).1 rfl

/-- C4: when classification yields at least one solid reference,
`processItem` performs no delete: it issues exactly one patch, preconditioned
on the item's UID, stripping exactly the dangling and waiting references,
and returns that patch's error. -/
theorem processItem_solidNoDelete (env : GCEnv) (cache : List String) (item : Node)
    (latest : MetaObject) (s : ClassifyState)
    (hbd : item.beingDeleted = false)
    (hdd : item.deletingDependents = false)
    (hget : env.getObject item.identity = .ok latest)
    (huid : latest.uid = item.identity.uid)
    (hrefs : latest.ownerReferences.length ≠ 0)
    (hclass : classifyReferences env (item.identity.ns.length != 0) cache
        latest.ownerReferences = .ok s)
    (hsolid : s.solid.length ≠ 0) :
    processItem env cache item =
      (s.getCalls.map Action.ownerGetCall ++
        [Action.patchCall item.identity
          (deleteOwnerRefPatch item.identity.uid
            (ownerRefsToUIDs s.dangling ++ ownerRefsToUIDs s.waiting))],
       patchErr? (env.patchObject item.identity
          (deleteOwnerRefPatch item.identity.uid
            (ownerRefsToUIDs s.dangling ++ ownerRefsToUIDs s.waiting))))
    ∧ ∀ id prop, Action.deleteCall id prop ∉ (processItem env cache item).1 := by
  have hp : processItem env cache item =
      (s.getCalls.map Action.ownerGetCall ++
        [Action.patchCall item.identity
          (deleteOwnerRefPatch item.identity.uid
            (ownerRefsToUIDs s.dangling ++ ownerRefsToUIDs s.waiting))],
       patchErr? (env.patchObject item.identity
          (deleteOwnerRefPatch item.identity.uid
            (ownerRefsToUIDs s.dangling ++ ownerRefsToUIDs s.waiting)))) := by
    unfold processItem
    simp [hbd, hdd, hget, huid, hrefs, hclass, hsolid]
  refine ⟨hp, ?_⟩
  intro id prop hmem
  rw [hp] at hmem
  simp at hmem

/-- Witness for C4: an item with one cached-absent and one live owner is
patched (preconditioned on its UID) to drop exactly the dangling reference,
and nothing is deleted. -/
theorem processItem_solidNoDelete_witness :
    processItem envSolid ["uid-gone"] itemSolid =
      ([Action.ownerGetCall refLive,
        Action.patchCall itemSolid.identity (deleteOwnerRefPatch ("uid-pod") ["uid-gone"])],
       none) := by
  have h := (processItem_solidNoDelete envSolid ["uid-gone"] itemSolid latestSolid
    stateSolid rfl rfl rfl rfl (by decide) rfl (by decide)).1
  simpa using h

/-- Counterexample for C3: the claim says it is the dependent's owner
references that are patched. At the concrete input below the item has a
dependent `depDeleting` that is itself deleting its dependents; the single
patch issued targets the ITEM's identity (`itemWaiting.identity`), and no
patch at all is issued against the dependent's identity
(`depDeleting.identity`). -/
theorem processItem_patchesItemNotDependent :
    processItem envWaiting [] itemWaiting =
      ([Action.ownerGetCall refOfItem,
        Action.patchCall itemWaiting.identity itemWaiting.patchToUnblockOwnerReferences,
        Action.deleteCall itemWaiting.identity .foreground], none)
    ∧ ¬ ∃ p : Patch,
        Action.patchCall depDeleting.identity p ∈ (processItem envWaiting [] itemWaiting).1 := by
  refine ⟨rfl, ?_⟩
  rintro ⟨p, hp⟩
  rw [show (processItem envWaiting [] itemWaiting).1 =
      [Action.ownerGetCall refOfItem,
       Action.patchCall itemWaiting.identity itemWaiting.patchToUnblockOwnerReferences,
       Action.deleteCall itemWaiting.identity .foreground] from rfl] at hp
  simp only [List.mem_cons, List.not_mem_nil, or_false] at hp
  rcases hp with h | h | h
  · exact Action.noConfusion h
  · injection h with h1 h2
    exact absurd h1 (by decide)
  · exact Action.noConfusion h

/-- C3 (amended): in the waiting-and-dependents branch, when some dependent
is itself deleting its dependents, the ITEM's own owner references are
patched to strip block-owner-deletion — exactly one patch per call, the scan
stopping at the first hit — and the item is then deleted with foreground
propagation. -/
theorem processItem_waitingCascade (env : GCEnv) (cache : List String) (item : Node)
    (latest : MetaObject) (s : ClassifyState) (dep : DepNode) (o : MetaObject)
    (hbd : item.beingDeleted = false)
    (hdd : item.deletingDependents = false)
    (hget : env.getObject item.identity = .ok latest)
    (huid : latest.uid = item.identity.uid)
    (hrefs : latest.ownerReferences.length ≠ 0)
    (hclass : classifyReferences env (item.identity.ns.length != 0) cache
        latest.ownerReferences = .ok s)
    (hsolid : s.solid.length = 0)
    (hwait : s.waiting.length ≠ 0)
    (hdeps : item.dependents.length ≠ 0)
    (hfind : item.dependents.find? (fun d => d.deletingDependents) = some dep)
    (hpatch : env.patchObject item.identity item.patchToUnblockOwnerReferences = .ok o) :
    processItem env cache item =
      (s.getCalls.map Action.ownerGetCall ++
        [Action.patchCall item.identity item.patchToUnblockOwnerReferences,
         Action.deleteCall item.identity .foreground],
       apiErr? (env.deleteObject item.identity .foreground)) := by
  unfold processItem waitingBranch foregroundDelete
  simp [hbd, hdd, hget, huid, hrefs, hclass, hsolid, hwait, hdeps, hfind, hpatch]

/-- Witness for C3 (amended): the concrete cascade input evaluates to the
item-targeted unblock patch followed by the foreground delete. -/
theorem processItem_waitingCascade_witness :
    processItem envWaiting [] itemWaiting =
      ([Action.ownerGetCall refOfItem,
        Action.patchCall itemWaiting.identity itemWaiting.patchToUnblockOwnerReferences,
        Action.deleteCall itemWaiting.identity .foreground], none) := by
  have h := processItem_waitingCascade envWaiting [] itemWaiting latestWaiting
    stateWaiting depDeleting MetaObject.zero rfl rfl rfl rfl (by decide) rfl rfl
    (by decide) (by decide) rfl rfl
  simpa using h

/-- C5: `processDeletingDependentsItem` removes the "delete dependents"
finalizer exactly when the node's blocking-dependents set is empty;
otherwise it enqueues every blocking dependent that is not yet deleting its
own dependents onto the delete-attempt queue, returns nil, and performs no
patch, delete or finalizer removal (every emitted action is an enqueue). -/
theorem processDeletingDependentsItem_spec (env : GCEnv) (item : Node) :
    (Action.removeFinalizerCall item.identity FinalizerDeleteDependents
        ∈ (processDeletingDependentsItem env item).1 ↔ item.blockingDependents = [])
    ∧ (item.blockingDependents ≠ [] →
        (∀ dep ∈ item.blockingDependents, dep.deletingDependents = false →
          Action.enqueueAttemptToDelete dep.identity ∈ (processDeletingDependentsItem env item).1)
        ∧ (processDeletingDependentsItem env item).2 = none
        ∧ ∀ a ∈ (processDeletingDependentsItem env item).1,
            ∃ id, a = Action.enqueueAttemptToDelete id) := by
  by_cases hb : item.blockingDependents = []
  · have h0 : item.blockingDependents.length = 0 := by rw [hb]; rfl
    refine ⟨?_, fun hne => absurd hb hne⟩
    unfold processDeletingDependentsItem
    rw [if_pos h0]
    simp [hb]
  · have h0 : ¬ item.blockingDependents.length = 0 := by
      intro hh
      exact hb (List.length_eq_zero.mp hh)
    have hval : processDeletingDependentsItem env item =
        (item.blockingDependents.filterMap fun dep =>
          if !dep.deletingDependents then
            some (.enqueueAttemptToDelete dep.identity)
          else none, none) := by
      unfold processDeletingDependentsItem
      rw [if_neg h0]
    constructor
    · rw [hval]
      simp only [List.mem_filterMap]
      constructor
      · rintro ⟨dep, _, heq⟩
        by_cases hd : dep.deletingDependents = true
        · simp [hd] at heq
        · simp [hd] at heq
      · intro h
        exact absurd h hb
    · intro _
      rw [hval]
      refine ⟨?_, rfl, ?_⟩
      · intro dep hdep hdd
        simp only [List.mem_filterMap]
        exact ⟨dep, hdep, by simp [hdd]⟩
      · intro a ha
        simp only [List.mem_filterMap] at ha
        obtain ⟨dep, _, heq⟩ := ha
        by_cases hd : dep.deletingDependents = true
        · simp [hd] at heq
        · simp [hd] at heq
          exact ⟨dep.identity, heq.symm⟩

/-- Witness for C5: a node with one blocking dependent that is not yet
deleting its dependents enqueues it and returns nil. -/
theorem processDeletingDependentsItem_witness :
    Action.enqueueAttemptToDelete depBlocking.identity
      ∈ (processDeletingDependentsItem envBase itemBlocked).1
    ∧ (processDeletingDependentsItem envBase itemBlocked).2 = none := by
  have h := (processDeletingDependentsItem_spec envBase itemBlocked).2 (by decide)
  exact ⟨h.1 depBlocking (by decide) (by decide), h.2.1⟩

theorem controllerFor_resource {env : NewGCEnv} {r : GroupVersionResource}
    {k : GroupVersionKind} {m : Monitor}
    (h : controllerFor env r k = .ok m) : m.resource = r := by
  unfold controllerFor at h
  cases hc : env.clientForGVK k with
  | error e => rw [hc] at h; exact Except.noConfusion h
  | ok u =>
    rw [hc] at h
    injection h with h1
    rw [← h1]

theorem buildMonitors_ok_resources (env : NewGCEnv) :
    ∀ (l : List GroupVersionResource) (acc monitors : List Monitor),
      buildMonitors env acc l = .ok monitors →
      ∀ m ∈ monitors, m ∈ acc ∨ m.resource ∉ ignoredResources := by
  intro l
  induction l with
  | nil =>
    intro acc monitors h m hm
    unfold buildMonitors at h
    injection h with h1
    rw [← h1] at hm
    exact .inl hm
  | cons r rest ih =>
    intro acc monitors h m hm
    unfold buildMonitors at h
    by_cases hr : r ∈ ignoredResources
    · rw [if_pos hr] at h
      exact ih acc monitors h m hm
    · rw [if_neg hr] at h
      cases hk : env.kindFor r with
      | error e =>
        simp only [hk] at h
        exact Except.noConfusion h
      | ok k =>
        simp only [hk] at h
        cases hc : controllerFor env r k with
        | error e =>
          simp only [hc] at h
          exact Except.noConfusion h
        | ok c =>
          simp only [hc] at h
          rcases ih (acc ++ [c]) monitors h m hm with hmem | hni
          · rcases List.mem_append.mp hmem with h1 | h2
            · exact .inl h1
            · right
              rw [List.mem_singleton.mp h2, controllerFor_resource hc]
              exact hr
          · exact .inr hni

/-- C9: every monitor of a successfully constructed collector watches a
non-ignored resource — resources in the static `ignoredResources` set are
skipped by the construction loop even when listed among the deletable
resources, so they are never watched. -/
theorem newGC_ignored_never_watched (env : NewGCEnv)
    (deletableResources : List GroupVersionResource) (monitors : List Monitor)
    (h : NewGarbageCollector env deletableResources = .ok monitors) :
    ∀ m ∈ monitors, m.resource ∉ ignoredResources := by
  intro m hm
  rcases buildMonitors_ok_resources env deletableResources [] monitors h m hm with h0 | h1
  · exact absurd h0 (List.not_mem_nil m)
  · exact h1

/-- Witness for C9: with the ignored v1 events resource listed among the
deletable resources, the constructed collector has a single monitor, for
pods, whose resource is not ignored. -/
theorem newGC_ignored_never_watched_witness :
    NewGarbageCollector envNewGCOk [gvrEvents, gvrPods] = .ok [monPods]
    ∧ monPods.resource ∉ ignoredResources :=
  ⟨rfl, newGC_ignored_never_watched envNewGCOk [gvrEvents, gvrPods] [monPods]
    rfl monPods (by decide)⟩

theorem buildMonitors_first_failure (env : NewGCEnv)
    (r : GroupVersionResource) (post : List GroupVersionResource) (e : String)
    (hni : r ∉ ignoredResources)
    (herr : env.kindFor r = .error e ∨
      ∃ k, env.kindFor r = .ok k ∧ controllerFor env r k = .error e) :
    ∀ (pre : List GroupVersionResource) (acc : List Monitor),
      (∀ r' ∈ pre, r' ∉ ignoredResources →
        ∃ k m, env.kindFor r' = .ok k ∧ controllerFor env r' k = .ok m) →
      buildMonitors env acc (pre ++ r :: post) = .error e := by
  intro pre
  induction pre with
  | nil =>
    intro acc _
    show buildMonitors env acc (r :: post) = .error e
    unfold buildMonitors
    rw [if_neg hni]
    rcases herr with hk | ⟨k, hk, hc⟩
    · simp only [hk]
    · simp only [hk, hc]
  | cons r' rest ih =>
    intro acc hok
    show buildMonitors env acc (r' :: (rest ++ r :: post)) = .error e
    unfold buildMonitors
    by_cases hr' : r' ∈ ignoredResources
    · rw [if_pos hr']
      exact ih acc fun x hx => hok x (List.mem_cons_of_mem r' hx)
    · rw [if_neg hr']
      obtain ⟨k, m, hk, hm⟩ := hok r' (List.mem_cons_self r' _) hr'
      simp only [hk, hm]
      exact ih (acc ++ [m]) fun x hx => hok x (List.mem_cons_of_mem r' hx)

/-- C10: `NewGarbageCollector` fails atomically — if every non-ignored
resource before `r` resolves and builds its monitor successfully, and `r` is
a non-ignored deletable resource whose kind resolution or monitor
construction fails with error `e`, then the constructor returns the nil
collector together with that very error (`Except.error e`), never a
partially initialised collector. -/
theorem newGC_atomic_failure (env : NewGCEnv)
    (pre : List GroupVersionResource) (r : GroupVersionResource)
    (post : List GroupVersionResource) (e : String)
    (hok : ∀ r' ∈ pre, r' ∉ ignoredResources →
      ∃ k m, env.kindFor r' = .ok k ∧ controllerFor env r' k = .ok m)
    (hni : r ∉ ignoredResources)
    (herr : env.kindFor r = .error e ∨
      ∃ k, env.kindFor r = .ok k ∧ controllerFor env r k = .error e) :
    NewGarbageCollector env (pre ++ r :: post) = .error e :=
  buildMonitors_first_failure env r post e hni herr pre [] hok

/-- Witness for C10: a single deletable resource whose kind cannot be
resolved makes the constructor return exactly that error. -/
theorem newGC_atomic_failure_witness :
    NewGarbageCollector envNewGCBad [gvrPods] = .error ("no kind for resource") :=
  newGC_atomic_failure envNewGCBad [] gvrPods [] ("no kind for resource")
    (fun x hx => absurd hx (List.not_mem_nil x)) (by decide) (.inl rfl)

end GarbageCollector
